import Mathlib

/-!
Shallow embedding of `qwen_image_edit_s3_client.py` (class `QwenImageEditS3Client`).

Strings are modelled as `List Char`.  Network and filesystem effects are
modelled explicitly: the S3 store, the job-queue HTTP API and the clock are
oracles passed in as parameters, and the functions return, next to the value
the Python code returns, a trace of the externally visible actions they
perform (S3 calls, submitted payloads, directories created, files written).
-/

/-- Convert a Lean string literal to the `List Char` representation used
throughout the development. -/
def chars (s : String) : List Char := s.data

/-- ASCII lowercasing of one character, modelling `str.lower()` on the
ASCII filenames the client deals with. -/
def lowerChar (c : Char) : Char :=
  if 'A' ≤ c ∧ c ≤ 'Z' then Char.ofNat (c.toNat + 32) else c

/-- Model of `os.path.join(a, b)` for POSIX paths. -/
def pathJoin (a b : List Char) : List Char :=
  if b.head? = some '/' then b
  else if a = [] ∨ a.getLast? = some '/' then a ++ b
  else a ++ '/' :: b

/-- Model of `os.path.basename`: the part of the path after the last slash. -/
def basename (p : List Char) : List Char :=
  (p.reverse.takeWhile (fun c => c ≠ '/')).reverse

/-- Model of `os.path.dirname`: the part up to the last slash, with trailing
slashes stripped unless the result consists only of slashes. -/
def dirname (p : List Char) : List Char :=
  let pre := (p.reverse.dropWhile (fun c => c ≠ '/')).reverse
  if pre.all (fun c => c = '/') then pre
  else (pre.reverse.dropWhile (fun c => c = '/')).reverse

/-- Model of `os.path.dirname(output_path) or '.'` — the Python truthiness
fallback used before `os.makedirs`. -/
def dirnameOrDot (p : List Char) : List Char :=
  if dirname p = [] then ['.'] else dirname p

/-- Index of the last dot in a name, if any (`str.rfind`). -/
def lastDotPos (name : List Char) : Option Nat :=
  ((List.range name.length).filter (fun i => name.get? i = some '.')).getLast?

/-- Model of `pathlib.Path(name).stem`: the name with its final extension
removed; the dot must be neither the first nor the last character. -/
def stem (name : List Char) : List Char :=
  match lastDotPos name with
  | some i => if 0 < i ∧ i < name.length - 1 then name.take i else name
  | none => name

/-- Decimal digits of a natural number, modelling `str(int(time.time()))`. -/
def natChars (n : Nat) : List Char := (Nat.repr n).data

/-! ## Base64 (RFC 4648, the codec behind Python's `base64` module) -/

/-- The standard base64 alphabet. -/
def b64chars : List Char :=
  "ABCDEFGHIJKLMNOPQRSTUVWXYZabcdefghijklmnopqrstuvwxyz0123456789+/".data

/-- Character for a 6-bit value. -/
def b64char (n : Nat) : Char := b64chars.getD n 'A'

/-- Six-bit value of an alphabet character, `none` off the alphabet. -/
def b64val (c : Char) : Option Nat := b64chars.findIdx? (fun x => x == c)

/-- Base64 encoding of a byte list (`base64.b64encode`), with `=` padding. -/
def b64encode : List Nat → List Char
  | [] => []
  | [a] => [b64char (a / 4), b64char (a % 4 * 16), '=', '=']
  | [a, b] => [b64char (a / 4), b64char (a % 4 * 16 + b / 16),
               b64char (b % 16 * 4), '=']
  | a :: b :: c :: rest =>
      b64char (a / 4) :: b64char (a % 4 * 16 + b / 16) ::
      b64char (b % 16 * 4 + c / 64) :: b64char (c % 64) :: b64encode rest

/-- Base64 decoding of a properly padded string (`base64.b64decode`); a
malformed input decodes to `none`, modelling the `binascii.Error` the Python
call raises there.  Python does not check that the unused trailing bits of a
padded quad are zero, and neither does this model. -/
def b64decode : List Char → Option (List Nat)
  | [] => some []
  | c1 :: c2 :: c3 :: c4 :: rest =>
    if c3 = '=' ∧ c4 = '=' ∧ rest = [] then
      match b64val c1, b64val c2 with
      | some v1, some v2 => some [v1 * 4 + v2 / 16]
      | _, _ => none
    else if c4 = '=' ∧ rest = [] then
      match b64val c1, b64val c2, b64val c3 with
      | some v1, some v2, some v3 =>
          some [v1 * 4 + v2 / 16, v2 % 16 * 16 + v3 / 4]
      | _, _, _ => none
    else
      match b64val c1, b64val c2, b64val c3, b64val c4, b64decode rest with
      | some v1, some v2, some v3, some v4, some bs =>
          some ((v1 * 4 + v2 / 16) :: (v2 % 16 * 16 + v3 / 4) ::
                (v3 % 4 * 64 + v4) :: bs)
      | _, _, _, _, _ => none
  | _ => none

/-- Characters after the first comma (`s.split(',', 1)[1]`). -/
def afterFirstComma : List Char → List Char
  | [] => []
  | c :: rest => if c = ',' then rest else afterFirstComma rest

/-- Model of the data-URI handling in `save_image_result`:
`if ',' in image_b64: image_b64 = image_b64.split(',', 1)[1]`. -/
def stripDataUri (s : List Char) : List Char :=
  if ',' ∈ s then afterFirstComma s else s

/-! ## Data model -/

/-- The `output` field of a status response, read by `save_image_result` via
`output.get('image')`. -/
structure OutputDict where
  image : Option (List Char)
deriving DecidableEq

/-- A status-response JSON body as read by `wait_for_completion`:
`status_data.get('status')`, `status_data.get('output')`,
`status_data.get('error', ...)`. -/
structure StatusData where
  status : Option (List Char)
  output : Option OutputDict
  error : Option (List Char)
deriving DecidableEq

/-- One poll cycle as observed by `wait_for_completion`: either the GET
raised `requests.exceptions.RequestException`, or it produced a JSON body. -/
inductive PollEvent where
  | reqError
  | response (status_data : StatusData)
deriving DecidableEq

/-- The poll trace: for each loop iteration, the elapsed seconds
`time.time() - start_time` measured at the loop head, and what the status
request then did.  An exhausted trace stands for the iteration at which the
elapsed time has passed the maximum wait. -/
abbrev PollTrace := List (Nat × PollEvent)

/-- The dictionary `wait_for_completion` returns: one of the four `status`
tags together with the extra keys that tag carries. -/
inductive JobResult where
  | completed (output : Option OutputDict) (job_id : List Char)
  | failed (error : List Char) (job_id : List Char)
  | unknown (data : StatusData) (job_id : List Char)
  | timeout (job_id : List Char)
deriving DecidableEq

/-- The `status` string of a job-result dictionary. -/
def statusOf : JobResult → List Char
  | .completed _ _ => chars "COMPLETED"
  | .failed _ _ => chars "FAILED"
  | .unknown _ _ => chars "UNKNOWN"
  | .timeout _ => chars "TIMEOUT"

/-- The `job_id` carried by a job-result dictionary. -/
def jobIdOf : JobResult → List Char
  | .completed _ j => j
  | .failed _ j => j
  | .unknown _ j => j
  | .timeout j => j

/-- What `edit_single_image` / `edit_dual_image` return: either an
`{"error": msg}` dictionary or the dictionary from `wait_for_completion`. -/
inductive JobOut where
  | errDict (msg : List Char)
  | res (r : JobResult)
deriving DecidableEq

/-- Model of `result.get('status')` on a `JobOut` dictionary. -/
def JobOut.getStatus : JobOut → Option (List Char)
  | .errDict _ => none
  | .res r => some (statusOf r)

/-- Model of `result.get('error')` on a `JobOut` dictionary. -/
def JobOut.getError : JobOut → Option (List Char)
  | .errDict msg => some msg
  | .res (.failed e _) => some e
  | .res _ => none

/-- Model of `result.get('job_id')` on a `JobOut` dictionary. -/
def JobOut.getJobId : JobOut → Option (List Char)
  | .errDict _ => none
  | .res r => some (jobIdOf r)

/-- The JSON payload `edit_single_image` / `edit_dual_image` build and pass
to `submit_job` (`image_path_2` is absent for the single-image variant). -/
structure InputData where
  image_path : List Char
  image_path_2 : Option (List Char)
  prompt : List Char
  seed : Int
  width : Int
  height : Int
  steps : Int
  cfg : Rat
  negative_prompt : List Char
deriving DecidableEq

/-- The argument list of one `self.edit_single_image(...)` call made by the
batch driver. -/
structure EditCall where
  image_path : List Char
  prompt : List Char
  seed : Int
  width : Int
  height : Int
  steps : Int
  cfg : Rat
  negative_prompt : List Char
  use_lightning : Bool
deriving DecidableEq

/-- A local filesystem snapshot: directories that `os.makedirs` has been
asked to create, and files written with their byte contents. -/
structure FS where
  dirs : List (List Char)
  files : List (List Char × List Nat)
deriving DecidableEq

/-- One S3 request issued through `boto3` (`upload_file`). -/
inductive S3Action where
  | uploadFile (file_path s3_key : List Char)
deriving DecidableEq

/-- Per-file entry appended to `results["results"]` by the batch driver. -/
structure FileResult where
  filename : List Char
  status : List Char
  output_file : Option (List Char) := none
  error : Option (List Char) := none
  job_id : Option (List Char)
deriving DecidableEq

/-- The batch summary dictionary returned by `batch_edit_images`. -/
structure BatchSummary where
  total_files : Nat
  successful : Nat
  failed : Nat
  results : List FileResult
deriving DecidableEq

/-- The external world as seen by one pipeline invocation: whether local
files exist, whether a given S3 `upload_file` call succeeds, the value of
`int(time.time())` at key generation, the job id the submission endpoint
returns (`none` for a failed submission), and the poll trace. -/
structure ClientEnv where
  fileExists : List Char → Bool
  uploadOk : List Char → List Char → Bool
  now : Nat
  submitId : Option (List Char)
  pollEvents : PollTrace

/-! ## Operations -/

/-- Model of `upload_to_s3`: check the file exists, issue the `upload_file`
call, and return `/runpod-volume/<key>` on success, `none` on a missing file
or a failed transfer.  The second component is the trace of S3 calls made. -/
def upload_to_s3 (fileExists : List Char → Bool)
    (uploadOk : List Char → List Char → Bool)
    (file_path s3_key : List Char) : Option (List Char) × List S3Action :=
  if fileExists file_path then
    if uploadOk file_path s3_key then
      (some (chars "/runpod-volume/" ++ s3_key), [.uploadFile file_path s3_key])
    else (none, [.uploadFile file_path s3_key])
  else (none, [])

/-- Model of `wait_for_completion`: walk the poll trace; at each iteration
first test `time.time() - start_time < max_wait_time`, then dispatch on the
reported status exactly as the source does (COMPLETED, FAILED, the two
in-progress statuses which sleep and retry, anything else is UNKNOWN); a
request error is logged, sleeps and retries. -/
def wait_for_completion (job_id : List Char)
    (check_interval max_wait_time : Nat) : PollTrace → JobResult
  | [] => .timeout job_id
  | e :: rest =>
    if e.1 < max_wait_time then
      match e.2 with
      | .reqError => wait_for_completion job_id check_interval max_wait_time rest
      | .response status_data =>
        if status_data.status = some (chars "COMPLETED") then
          .completed status_data.output job_id
        else if status_data.status = some (chars "FAILED") then
          .failed (status_data.error.getD (chars "Unknown error")) job_id
        else if status_data.status = some (chars "IN_QUEUE") ∨
                status_data.status = some (chars "IN_PROGRESS") then
          wait_for_completion job_id check_interval max_wait_time rest
        else
          .unknown status_data job_id
    else .timeout job_id

/-- Model of `save_image_result`: require a COMPLETED result with a
non-empty `output.image` payload, create the output directory, strip an
optional data-URI head, base64-decode and write the bytes.  Returns the
Python boolean together with the filesystem after the call. -/
def save_image_result (result : JobResult) (output_path : List Char)
    (fs : FS) : Bool × FS :=
  match result with
  | .completed output _ =>
    match output with
    | none => (false, fs)
    | some od =>
      match od.image with
      | none => (false, fs)
      | some image_b64 =>
        if image_b64 = [] then (false, fs)
        else
          let fs1 : FS := { fs with dirs := dirnameOrDot output_path :: fs.dirs }
          match b64decode (stripDataUri image_b64) with
          | none => (false, fs1)
          | some decoded_image =>
              (true, { fs1 with files := (output_path, decoded_image) :: fs1.files })
  | _ => (false, fs)

/-- The S3 key `edit_single_image` generates:
`input/qwen/{timestamp}_{os.path.basename(image_path)}`. -/
def singleKey (timestamp : Nat) (image_path : List Char) : List Char :=
  chars "input/qwen/" ++ natChars timestamp ++ chars "_" ++ basename image_path

/-- The donor key `edit_dual_image` generates:
`input/qwen/{timestamp}_donor_{os.path.basename(image_path)}`. -/
def donorKey (timestamp : Nat) (image_path : List Char) : List Char :=
  chars "input/qwen/" ++ natChars timestamp ++ chars "_donor_" ++ basename image_path

/-- The canvas key `edit_dual_image` generates:
`input/qwen/{timestamp}_canvas_{os.path.basename(image_path_2)}`. -/
def canvasKey (timestamp : Nat) (image_path : List Char) : List Char :=
  chars "input/qwen/" ++ natChars timestamp ++ chars "_canvas_" ++ basename image_path

/-- Model of `edit_single_image`: existence check, S3 upload under a
timestamped key, Lightning override of `steps`, payload construction,
submission and wait (defaults `check_interval=10`, `max_wait_time=1800`).
The second component is the list of payloads passed to `submit_job`. -/
def edit_single_image (env : ClientEnv) (image_path prompt : List Char)
    (seed width height steps : Int) (cfg : Rat) (negative_prompt : List Char)
    (use_lightning : Bool) : JobOut × List InputData :=
  if env.fileExists image_path = false then
    (.errDict (chars "Image file does not exist: " ++ image_path), [])
  else
    let timestamp := env.now
    let image_s3_key := singleKey timestamp image_path
    match (upload_to_s3 env.fileExists env.uploadOk image_path image_s3_key).1 with
    | none => (.errDict (chars "Image S3 upload failed"), [])
    | some image_s3_path =>
      let steps2 := if use_lightning then 4 else steps
      let input_data : InputData :=
        { image_path := image_s3_path, image_path_2 := none, prompt := prompt,
          seed := seed, width := width, height := height, steps := steps2,
          cfg := cfg, negative_prompt := negative_prompt }
      let out : JobOut :=
        match env.submitId with
        | none => .errDict (chars "Job submission failed")
        | some job_id => .res (wait_for_completion job_id 10 1800 env.pollEvents)
      (out, [input_data])

/-- Model of `edit_dual_image`: like `edit_single_image` but with two
existence checks and two uploads (donor then canvas) sharing one
timestamp. -/
def edit_dual_image (env : ClientEnv) (image_path image_path_2 prompt : List Char)
    (seed width height steps : Int) (cfg : Rat) (negative_prompt : List Char)
    (use_lightning : Bool) : JobOut × List InputData :=
  if env.fileExists image_path = false then
    (.errDict (chars "First image file does not exist: " ++ image_path), [])
  else if env.fileExists image_path_2 = false then
    (.errDict (chars "Second image file does not exist: " ++ image_path_2), [])
  else
    let timestamp := env.now
    match (upload_to_s3 env.fileExists env.uploadOk image_path
            (donorKey timestamp image_path)).1 with
    | none => (.errDict (chars "First image S3 upload failed"), [])
    | some image_s3_path =>
      match (upload_to_s3 env.fileExists env.uploadOk image_path_2
              (canvasKey timestamp image_path_2)).1 with
      | none => (.errDict (chars "Second image S3 upload failed"), [])
      | some image_s3_path_2 =>
        let steps2 := if use_lightning then 4 else steps
        let input_data : InputData :=
          { image_path := image_s3_path, image_path_2 := some image_s3_path_2,
            prompt := prompt, seed := seed, width := width, height := height,
            steps := steps2, cfg := cfg, negative_prompt := negative_prompt }
        let out : JobOut :=
          match env.submitId with
          | none => .errDict (chars "Job submission failed")
          | some job_id => .res (wait_for_completion job_id 10 1800 env.pollEvents)
        (out, [input_data])

/-- The filename filter of the batch driver:
`f.lower().endswith(valid_image_extensions)`. -/
def matchesExt (valid_image_extensions : List (List Char)) (f : List Char) : Bool :=
  valid_image_extensions.any (fun e => List.isSuffixOf e (f.map lowerChar))

/-- The per-file loop of `batch_edit_images`.  `edit` and `save` stand for
the `self.edit_single_image` / `self.save_image_result` method calls the
loop makes; `i` is the `enumerate` index.  Returns the `successful` and
`failed` counters, the per-file entries, and the trace of edit calls. -/
def batchLoop (edit : EditCall → JobOut) (save : JobOut → List Char → Bool)
    (image_folder_path output_folder_path prompt : List Char)
    (seed width height steps : Int) (cfg : Rat) (negative_prompt : List Char)
    (use_lightning : Bool) :
    Nat → List (List Char) → Nat × Nat × List FileResult × List EditCall
  | _, [] => (0, 0, [], [])
  | i, image_filename :: rest =>
    let image_path := pathJoin image_folder_path image_filename
    let call : EditCall :=
      { image_path := image_path, prompt := prompt, seed := seed + (i : Int),
        width := width, height := height, steps := steps, cfg := cfg,
        negative_prompt := negative_prompt, use_lightning := use_lightning }
    let result := edit call
    let output_filename :=
      pathJoin output_folder_path (chars "edited_" ++ stem image_filename ++ chars ".png")
    let entry : FileResult × Nat × Nat :=
      if result.getStatus = some (chars "COMPLETED") then
        if save result output_filename then
          ({ filename := image_filename, status := chars "success",
             output_file := some output_filename, job_id := result.getJobId }, 1, 0)
        else
          ({ filename := image_filename, status := chars "failed",
             error := some (chars "Result save failed"),
             job_id := result.getJobId }, 0, 1)
      else
        ({ filename := image_filename, status := chars "failed",
           error := some (result.getError.getD (chars "Unknown error")),
           job_id := result.getJobId }, 0, 1)
    let prev := batchLoop edit save image_folder_path output_folder_path prompt
      seed width height steps cfg negative_prompt use_lightning (i + 1) rest
    (entry.2.1 + prev.1, entry.2.2 + prev.2.1,
     entry.1 :: prev.2.2.1, call :: prev.2.2.2)

/-- Model of `batch_edit_images`: directory check, output-folder creation,
extension filter, empty check, then the per-file loop.  Returns the error
or summary dictionary, the directories created, and the edit calls made. -/
def batch_edit_images (edit : EditCall → JobOut) (save : JobOut → List Char → Bool)
    (isDir : Bool) (listing : List (List Char))
    (image_folder_path output_folder_path : List Char)
    (valid_image_extensions : List (List Char))
    (prompt : List Char) (seed width height steps : Int) (cfg : Rat)
    (negative_prompt : List Char) (use_lightning : Bool) :
    Except (List Char) BatchSummary × List (List Char) × List EditCall :=
  if isDir = false then
    (.error (chars "Image folder does not exist: " ++ image_folder_path), [], [])
  else
    let dirsCreated := [output_folder_path]
    let image_files := listing.filter (matchesExt valid_image_extensions)
    if image_files = [] then
      (.error (chars "No image files to process: " ++ image_folder_path),
       dirsCreated, [])
    else
      let r := batchLoop edit save image_folder_path output_folder_path prompt
        seed width height steps cfg negative_prompt use_lightning 0 image_files
      (.ok { total_files := image_files.length, successful := r.1,
             failed := r.2.1, results := r.2.2.1 }, dirsCreated, r.2.2.2)

/-! ## Base64 lemmas -/

/-- Every encoded sextet character sits in the base64 alphabet. -/
theorem b64char_mem (n : Nat) : b64char n ∈ b64chars := by
  by_cases h : n < 64
  · have h1 : ∀ m : Fin 64, b64char m.val ∈ b64chars := by decide
    exact h1 ⟨n, h⟩
  · have hd : b64char n = 'A' := by
      unfold b64char
      exact List.getD_eq_default _ _ (by simp [b64chars]; omega)
    rw [hd]; decide

/-- An alphabet character is never the padding character. -/
theorem b64char_ne_pad (n : Nat) : b64char n ≠ '=' := by
  intro h
  have := b64char_mem n
  rw [h] at this
  revert this; decide

/-- An alphabet character is never a comma, so data-URI stripping leaves an
encoded payload alone. -/
theorem b64char_ne_comma (n : Nat) : b64char n ≠ ',' := by
  intro h
  have := b64char_mem n
  rw [h] at this
  revert this; decide

/-- No comma occurs in a base64 encoding. -/
theorem comma_not_mem_b64encode : ∀ bs : List Nat, ',' ∉ b64encode bs
  | [] => by simp [b64encode]
  | [a] => by
    intro hmem
    simp only [b64encode, List.mem_cons, List.not_mem_nil, or_false] at hmem
    rcases hmem with h | h | h | h
    · exact b64char_ne_comma _ h.symm
    · exact b64char_ne_comma _ h.symm
    · exact absurd h (by decide)
    · exact absurd h (by decide)
  | [a, b] => by
    intro hmem
    simp only [b64encode, List.mem_cons, List.not_mem_nil, or_false] at hmem
    rcases hmem with h | h | h | h
    · exact b64char_ne_comma _ h.symm
    · exact b64char_ne_comma _ h.symm
    · exact b64char_ne_comma _ h.symm
    · exact absurd h (by decide)
  | a :: b :: c :: rest => by
    intro hmem
    simp only [b64encode, List.mem_cons] at hmem
    rcases hmem with h | h | h | h | h
    · exact b64char_ne_comma _ h.symm
    · exact b64char_ne_comma _ h.symm
    · exact b64char_ne_comma _ h.symm
    · exact b64char_ne_comma _ h.symm
    · exact comma_not_mem_b64encode rest h

/-- Sextet values round-trip through the alphabet. -/
theorem b64val_b64char (n : Nat) (h : n < 64) : b64val (b64char n) = some n := by
  have h1 : ∀ m : Fin 64, b64val (b64char m.val) = some m.val := by decide
  exact h1 ⟨n, h⟩

/-- Decoding inverts encoding on byte lists. -/
theorem b64decode_b64encode : ∀ bs : List Nat, (∀ b ∈ bs, b < 256) →
    b64decode (b64encode bs) = some bs
  | [], _ => rfl
  | [a], h => by
    have ha : a < 256 := h a (by simp)
    simp only [b64encode, b64decode]
    rw [if_pos (by decide)]
    rw [b64val_b64char _ (by omega), b64val_b64char _ (by omega)]
    have h1 : a / 4 * 4 + a % 4 * 16 / 16 = a := by omega
    show some [a / 4 * 4 + a % 4 * 16 / 16] = some [a]
    rw [h1]
  | [a, b], h => by
    have ha : a < 256 := h a (by simp)
    have hb : b < 256 := h b (by simp)
    simp only [b64encode, b64decode]
    rw [if_neg (fun hc => b64char_ne_pad _ hc.1)]
    rw [if_pos (by decide)]
    rw [b64val_b64char _ (by omega), b64val_b64char _ (by omega),
        b64val_b64char _ (by omega)]
    have h1 : a / 4 * 4 + (a % 4 * 16 + b / 16) / 16 = a := by omega
    have h2 : (a % 4 * 16 + b / 16) % 16 * 16 + b % 16 * 4 / 4 = b := by omega
    show some [a / 4 * 4 + (a % 4 * 16 + b / 16) / 16,
               (a % 4 * 16 + b / 16) % 16 * 16 + b % 16 * 4 / 4] = some [a, b]
    rw [h1, h2]
  | a :: b :: c :: rest, h => by
    have ha : a < 256 := h a (by simp)
    have hb : b < 256 := h b (by simp)
    have hc : c < 256 := h c (by simp)
    have ih := b64decode_b64encode rest (fun x hx => h x (by simp [hx]))
    simp only [b64encode, b64decode]
    rw [if_neg (fun hcon => b64char_ne_pad _ hcon.1)]
    rw [if_neg (fun hcon => b64char_ne_pad _ hcon.1)]
    rw [b64val_b64char _ (by omega), b64val_b64char _ (by omega),
        b64val_b64char _ (by omega), b64val_b64char _ (by omega), ih]
    have h1 : a / 4 * 4 + (a % 4 * 16 + b / 16) / 16 = a := by omega
    have h2 : (a % 4 * 16 + b / 16) % 16 * 16 + (b % 16 * 4 + c / 64) / 4 = b := by
      omega
    have h3 : (b % 16 * 4 + c / 64) % 4 * 64 + c % 64 = c := by omega
    show some ((a / 4 * 4 + (a % 4 * 16 + b / 16) / 16) ::
               ((a % 4 * 16 + b / 16) % 16 * 16 + (b % 16 * 4 + c / 64) / 4) ::
               ((b % 16 * 4 + c / 64) % 4 * 64 + c % 64) :: rest) =
         some (a :: b :: c :: rest)
    rw [h1, h2, h3]

/-- Splitting at the first comma drops exactly a comma-free head. -/
theorem afterFirstComma_append (pre enc : List Char) (h : ',' ∉ pre) :
    afterFirstComma (pre ++ ',' :: enc) = enc := by
  induction pre with
  | nil => simp [afterFirstComma]
  | cons c cs ih =>
    have hc : ¬ c = ',' := fun hcc => h (by simp [hcc])
    simp only [List.cons_append, afterFirstComma, if_neg hc]
    exact ih (fun hm => h (List.mem_cons_of_mem _ hm))

/-- Data-URI stripping is the identity on a bare base64 encoding. -/
theorem stripDataUri_b64encode (bs : List Nat) :
    stripDataUri (b64encode bs) = b64encode bs := by
  unfold stripDataUri
  rw [if_neg (comma_not_mem_b64encode bs)]

/-- Data-URI stripping removes a comma-terminated head. -/
theorem stripDataUri_head (pre enc : List Char) (h : ',' ∉ pre) :
    stripDataUri (pre ++ ',' :: enc) = enc := by
  unfold stripDataUri
  rw [if_pos (by simp), afterFirstComma_append pre enc h]

/-! ## Poller theorems -/

/-- A poll cycle that keeps the loop going: a request error, or a response
whose status is one of the two non-terminal values. -/
def isNonTerminalEvent : PollEvent → Bool
  | .reqError => true
  | .response d =>
      decide (d.status = some (chars "IN_QUEUE") ∨
              d.status = some (chars "IN_PROGRESS"))

/-- C1: for every job identifier, polling interval and maximum wait, if
every poll cycle observed while the elapsed time is below the maximum wait
is non-terminal (a request error or an IN_QUEUE / IN_PROGRESS response, with
no terminal and no unrecognized status), `wait_for_completion` returns the
TIMEOUT result carrying the given job id, however many such cycles there
were. -/
theorem wait_for_completion_times_out (job_id : List Char)
    (check_interval max_wait_time : Nat) (events : PollTrace)
    (h : ∀ e ∈ events, e.1 < max_wait_time → isNonTerminalEvent e.2 = true) :
    wait_for_completion job_id check_interval max_wait_time events =
      .timeout job_id := by
  induction events with
  | nil => rfl
  | cons e rest ih =>
    obtain ⟨t, ev⟩ := e
    rw [wait_for_completion]
    dsimp only
    by_cases ht : t < max_wait_time
    · rw [if_pos ht]
      have hnt := h (t, ev) (List.mem_cons_self _ _) ht
      have ih2 := ih (fun e he hlt => h e (List.mem_cons_of_mem _ he) hlt)
      cases ev with
      | reqError => exact ih2
      | response d =>
        simp only [isNonTerminalEvent, decide_eq_true_eq] at hnt
        have h1 : ¬ d.status = some (chars "COMPLETED") := by
          rcases hnt with h' | h' <;> rw [h'] <;> decide
        have h2 : ¬ d.status = some (chars "FAILED") := by
          rcases hnt with h' | h' <;> rw [h'] <;> decide
        dsimp only
        rw [if_neg h1, if_neg h2, if_pos hnt]
        exact ih2
    · rw [if_neg ht]

/-- Witness for C1: three non-terminal cycles inside the wait window and a
late COMPLETED response still yield TIMEOUT. -/
theorem wait_for_completion_times_out_witness :
    (∀ e ∈ ([(0, PollEvent.reqError),
             (10, PollEvent.response ⟨some (chars "IN_QUEUE"), none, none⟩),
             (20, PollEvent.response ⟨some (chars "IN_PROGRESS"), none, none⟩),
             (1900, PollEvent.response ⟨some (chars "COMPLETED"), none, none⟩)] :
            PollTrace),
      e.1 < 1800 → isNonTerminalEvent e.2 = true) ∧
    wait_for_completion (chars "job-1") 10 1800
      [(0, PollEvent.reqError),
       (10, PollEvent.response ⟨some (chars "IN_QUEUE"), none, none⟩),
       (20, PollEvent.response ⟨some (chars "IN_PROGRESS"), none, none⟩),
       (1900, PollEvent.response ⟨some (chars "COMPLETED"), none, none⟩)] =
      .timeout (chars "job-1") :=
  ⟨by decide, wait_for_completion_times_out _ _ _ _ (by decide)⟩

/-- C2: a request error during a status check is non-fatal: any finite run
of request errors inside the wait window followed by a COMPLETED response
still yields the COMPLETED result. -/
theorem wait_for_completion_survives_request_errors (job_id : List Char)
    (check_interval max_wait_time : Nat) (errs : PollTrace)
    (herr : ∀ e ∈ errs, e.2 = .reqError ∧ e.1 < max_wait_time)
    (t : Nat) (ht : t < max_wait_time) (d : StatusData)
    (hd : d.status = some (chars "COMPLETED")) (rest : PollTrace) :
    wait_for_completion job_id check_interval max_wait_time
        (errs ++ (t, .response d) :: rest) =
      .completed d.output job_id := by
  induction errs with
  | nil =>
    rw [List.nil_append, wait_for_completion]
    dsimp only
    rw [if_pos ht, if_pos hd]
  | cons e es ih =>
    obtain ⟨t', ev'⟩ := e
    obtain ⟨hev, ht'⟩ := herr (t', ev') (List.mem_cons_self _ _)
    cases hev
    rw [List.cons_append, wait_for_completion]
    dsimp only
    rw [if_pos ht']
    exact ih (fun e he => herr e (List.mem_cons_of_mem _ he))

/-- Witness for C2: two request errors then COMPLETED within the window. -/
theorem wait_for_completion_survives_request_errors_witness :
    (∀ e ∈ ([(0, PollEvent.reqError), (10, PollEvent.reqError)] : PollTrace),
      e.2 = PollEvent.reqError ∧ e.1 < 1800) ∧
    wait_for_completion (chars "job-2") 10 1800
      ([(0, PollEvent.reqError), (10, PollEvent.reqError)] ++
        [(20, PollEvent.response
          ⟨some (chars "COMPLETED"), some ⟨some (chars "aGk=")⟩, none⟩)]) =
      .completed (some ⟨some (chars "aGk=")⟩) (chars "job-2") :=
  ⟨by decide,
   wait_for_completion_survives_request_errors _ _ _ _ (by decide) 20
     (by decide) _ (by decide) []⟩

/-- C6: the first poll cycle inside the wait window that observes a status
outside the recognized set, after any run of non-terminal cycles, ends
polling at once with the UNKNOWN result carrying the raw response data and
the job id — an unrecognized status is never retried. -/
theorem wait_for_completion_unknown_is_terminal (job_id : List Char)
    (check_interval max_wait_time : Nat) (pre : PollTrace)
    (hpre : ∀ e ∈ pre, e.1 < max_wait_time ∧ isNonTerminalEvent e.2 = true)
    (t : Nat) (ht : t < max_wait_time) (d : StatusData) (s : List Char)
    (hs : d.status = some s)
    (hrec : s ∉ [chars "COMPLETED", chars "FAILED",
                 chars "IN_QUEUE", chars "IN_PROGRESS"])
    (rest : PollTrace) :
    wait_for_completion job_id check_interval max_wait_time
        (pre ++ (t, .response d) :: rest) =
      .unknown d job_id := by
  simp only [List.mem_cons, List.not_mem_nil, or_false, not_or] at hrec
  obtain ⟨hc, hf, hq, hp⟩ := hrec
  induction pre with
  | nil =>
    rw [List.nil_append, wait_for_completion]
    dsimp only
    rw [if_pos ht]
    rw [if_neg (by rw [hs]; simpa using hc),
        if_neg (by rw [hs]; simpa using hf),
        if_neg (by rw [hs]; simp; exact ⟨hq, hp⟩)]
  | cons e es ih =>
    obtain ⟨t', ev'⟩ := e
    obtain ⟨ht', hnt⟩ := hpre (t', ev') (List.mem_cons_self _ _)
    have ih2 := ih (fun e he => hpre e (List.mem_cons_of_mem _ he))
    rw [List.cons_append, wait_for_completion]
    dsimp only
    rw [if_pos ht']
    cases ev' with
    | reqError => exact ih2
    | response d' =>
      simp only [isNonTerminalEvent, decide_eq_true_eq] at hnt
      have h1 : ¬ d'.status = some (chars "COMPLETED") := by
        rcases hnt with h' | h' <;> rw [h'] <;> decide
      have h2 : ¬ d'.status = some (chars "FAILED") := by
        rcases hnt with h' | h' <;> rw [h'] <;> decide
      dsimp only
      rw [if_neg h1, if_neg h2, if_pos hnt]
      exact ih2

/-- Witness for C6: an IN_QUEUE cycle then a misspelled status ends polling
with UNKNOWN carrying the raw data. -/
theorem wait_for_completion_unknown_is_terminal_witness :
    wait_for_completion (chars "job-3") 10 1800
      ([(0, PollEvent.response ⟨some (chars "IN_QUEUE"), none, none⟩)] ++
        ((5, PollEvent.response ⟨some (chars "COMPLETE"), none, none⟩) ::
          [(15, PollEvent.response ⟨some (chars "COMPLETED"), none, none⟩)])) =
      .unknown ⟨some (chars "COMPLETE"), none, none⟩ (chars "job-3") :=
  wait_for_completion_unknown_is_terminal _ _ _ _ (by decide) 5 (by decide) _
    (chars "COMPLETE") (by decide) (by decide) _

/-- C5: a FAILED status observed inside the wait window makes the poller
return the FAILED result carrying the reported error message (or the
default `Unknown error` when the response has none), and
`save_image_result` on any result whose status is not COMPLETED returns
`False` leaving the filesystem untouched. -/
theorem failed_job_reported_and_not_saved (job_id : List Char)
    (check_interval max_wait_time : Nat) (t : Nat) (ht : t < max_wait_time)
    (d : StatusData) (hs : d.status = some (chars "FAILED")) (rest : PollTrace)
    (r : JobResult) (hr : statusOf r ≠ chars "COMPLETED")
    (output_path : List Char) (fs : FS) :
    wait_for_completion job_id check_interval max_wait_time
        ((t, .response d) :: rest) =
      .failed (d.error.getD (chars "Unknown error")) job_id ∧
    save_image_result r output_path fs = (false, fs) := by
  constructor
  · rw [wait_for_completion]
    dsimp only
    rw [if_pos ht, if_neg (by rw [hs]; decide), if_pos hs]
  · cases r with
    | completed output j => exact absurd rfl hr
    | failed e j => rfl
    | unknown dd j => rfl
    | timeout j => rfl

/-- Witness for C5: a FAILED response with an explicit message, and a
TIMEOUT result that is not saved. -/
theorem failed_job_reported_and_not_saved_witness :
    wait_for_completion (chars "job-4") 10 1800
      [(0, PollEvent.response
        ⟨some (chars "FAILED"), none, some (chars "boom")⟩)] =
      .failed (chars "boom") (chars "job-4") ∧
    save_image_result (.timeout (chars "job-4")) (chars "out/x.png")
      ⟨[], []⟩ = (false, ⟨[], []⟩) := by
  have h := failed_job_reported_and_not_saved (chars "job-4") 10 1800 0
    (by decide) ⟨some (chars "FAILED"), none, some (chars "boom")⟩ (by decide)
    [] (.timeout (chars "job-4")) (by decide) (chars "out/x.png") ⟨[], []⟩
  exact h

/-! ## Result-writer and uploader theorems -/

/-- C3: on a COMPLETED result whose output holds a non-empty base64 image
payload — a byte list's encoding, with or without a data-URI head ending at
the first comma — `save_image_result` creates the missing parent directory
of the output path, writes exactly the decoded bytes to the output path and
returns `True`: a round trip with base64 encoding. -/
theorem save_image_result_roundtrip (bytes : List Nat)
    (hb : ∀ b ∈ bytes, b < 256) (payload : List Char)
    (hpay : payload = b64encode bytes ∨
      ∃ pre, ',' ∉ pre ∧ payload = pre ++ ',' :: b64encode bytes)
    (hne : payload ≠ []) (job_id output_path : List Char) (fs : FS) :
    save_image_result (.completed (some ⟨some payload⟩) job_id) output_path fs =
      (true, { dirs := dirnameOrDot output_path :: fs.dirs,
               files := (output_path, bytes) :: fs.files }) := by
  have hstrip : stripDataUri payload = b64encode bytes := by
    rcases hpay with h | ⟨pre, hpre, h⟩
    · rw [h, stripDataUri_b64encode]
    · rw [h, stripDataUri_head _ _ hpre]
  simp only [save_image_result]
  rw [if_neg hne, hstrip, b64decode_b64encode bytes hb]

/-- Witness for C3: a four-byte PNG-style payload behind a data-URI head
round-trips onto disk. -/
theorem save_image_result_roundtrip_witness :
    save_image_result
      (.completed
        (some ⟨some (chars "data:image/png;base64," ++ b64encode [137, 80, 78, 71])⟩)
        (chars "job-5"))
      (chars "out/edited_a.png") ⟨[], []⟩ =
      (true, ⟨[chars "out"], [(chars "out/edited_a.png", [137, 80, 78, 71])]⟩) :=
  (save_image_result_roundtrip [137, 80, 78, 71] (by decide)
    (chars "data:image/png;base64," ++ b64encode [137, 80, 78, 71])
    (Or.inr ⟨chars "data:image/png;base64", by decide, by decide⟩)
    (by decide) (chars "job-5") (chars "out/edited_a.png") ⟨[], []⟩).trans
    (by decide)

/-- C8: `upload_to_s3` on a local path that does not exist returns `None`
and issues no S3 request — the existence check short-circuits the upload. -/
theorem upload_to_s3_missing_file (fileExists : List Char → Bool)
    (uploadOk : List Char → List Char → Bool) (file_path s3_key : List Char)
    (h : fileExists file_path = false) :
    upload_to_s3 fileExists uploadOk file_path s3_key = (none, []) := by
  simp [upload_to_s3, h]

/-- Witness for C8: a store where no file exists yields no call. -/
theorem upload_to_s3_missing_file_witness :
    ((fun _ : List Char => false) (chars "missing.png") = false) ∧
    upload_to_s3 (fun _ => false) (fun _ _ => true) (chars "missing.png")
      (chars "input/qwen/1_missing.png") = (none, []) :=
  ⟨rfl, upload_to_s3_missing_file _ _ _ _ rfl⟩

/-- C7: with Lightning mode on, the payload submitted by
`edit_single_image` and by `edit_dual_image` carries `steps = 4` whatever
step count the caller supplied; with Lightning mode off the caller-supplied
step count is used unchanged. -/
theorem lightning_mode_overrides_steps (env : ClientEnv)
    (image_path image_path_2 prompt : List Char)
    (seed width height steps : Int) (cfg : Rat) (negative_prompt : List Char)
    (h1 : env.fileExists image_path = true)
    (hu1 : env.uploadOk image_path (singleKey env.now image_path) = true)
    (h2 : env.fileExists image_path_2 = true)
    (hd : env.uploadOk image_path (donorKey env.now image_path) = true)
    (hc : env.uploadOk image_path_2 (canvasKey env.now image_path_2) = true) :
    ((edit_single_image env image_path prompt seed width height steps cfg
        negative_prompt true).2.map InputData.steps = [4]) ∧
    ((edit_single_image env image_path prompt seed width height steps cfg
        negative_prompt false).2.map InputData.steps = [steps]) ∧
    ((edit_dual_image env image_path image_path_2 prompt seed width height
        steps cfg negative_prompt true).2.map InputData.steps = [4]) ∧
    ((edit_dual_image env image_path image_path_2 prompt seed width height
        steps cfg negative_prompt false).2.map InputData.steps = [steps]) := by
  refine ⟨?_, ?_, ?_, ?_⟩ <;>
    simp [edit_single_image, edit_dual_image, upload_to_s3, h1, hu1, h2, hd, hc]

/-- Witness for C7: a caller-supplied step count of 40 is overridden to 4
under Lightning mode and kept at 40 otherwise, in both edit variants. -/
theorem lightning_mode_overrides_steps_witness :
    ((edit_single_image ⟨fun _ => true, fun _ _ => true, 111, some (chars "j"), []⟩
        (chars "a.png") (chars "p") 12345 1024 1024 40 4 (chars " ")
        true).2.map InputData.steps = [4]) ∧
    ((edit_single_image ⟨fun _ => true, fun _ _ => true, 111, some (chars "j"), []⟩
        (chars "a.png") (chars "p") 12345 1024 1024 40 4 (chars " ")
        false).2.map InputData.steps = [40]) ∧
    ((edit_dual_image ⟨fun _ => true, fun _ _ => true, 111, some (chars "j"), []⟩
        (chars "a.png") (chars "b.png") (chars "p") 12345 1024 1024 40 4 (chars " ")
        true).2.map InputData.steps = [4]) ∧
    ((edit_dual_image ⟨fun _ => true, fun _ _ => true, 111, some (chars "j"), []⟩
        (chars "a.png") (chars "b.png") (chars "p") 12345 1024 1024 40 4 (chars " ")
        false).2.map InputData.steps = [40]) :=
  lightning_mode_overrides_steps _ _ _ _ _ _ _ _ _ _ rfl rfl rfl rfl rfl

/-- C9: a successful upload returns `/runpod-volume/` followed by the key;
the single-image payload references the key
`input/qwen/<timestamp>_<basename>`, and the dual-image payload references
the donor- and canvas-tagged keys built from the same timestamp. -/
theorem s3_storage_reference_convention (fileExists : List Char → Bool)
    (uploadOk : List Char → List Char → Bool) (file_path s3_key : List Char)
    (hfe : fileExists file_path = true) (hok : uploadOk file_path s3_key = true)
    (env : ClientEnv) (image_path image_path_2 prompt : List Char)
    (seed width height steps : Int) (cfg : Rat) (negative_prompt : List Char)
    (use_lightning : Bool)
    (h1 : env.fileExists image_path = true)
    (hu1 : env.uploadOk image_path (singleKey env.now image_path) = true)
    (h2 : env.fileExists image_path_2 = true)
    (hd : env.uploadOk image_path (donorKey env.now image_path) = true)
    (hc : env.uploadOk image_path_2 (canvasKey env.now image_path_2) = true) :
    (upload_to_s3 fileExists uploadOk file_path s3_key).1 =
      some (chars "/runpod-volume/" ++ s3_key) ∧
    (edit_single_image env image_path prompt seed width height steps cfg
        negative_prompt use_lightning).2.map InputData.image_path =
      [chars "/runpod-volume/" ++ singleKey env.now image_path] ∧
    (edit_dual_image env image_path image_path_2 prompt seed width height
        steps cfg negative_prompt use_lightning).2.map
        (fun d => (d.image_path, d.image_path_2)) =
      [(chars "/runpod-volume/" ++ donorKey env.now image_path,
        some (chars "/runpod-volume/" ++ canvasKey env.now image_path_2))] := by
  refine ⟨?_, ?_, ?_⟩
  · simp [upload_to_s3, hfe, hok]
  · simp [edit_single_image, upload_to_s3, h1, hu1]
  · simp [edit_dual_image, upload_to_s3, h1, h2, hd, hc]

/-- Witness for C9: the concrete keys and storage references at timestamp
111 for `a.png` and `b.png`. -/
theorem s3_storage_reference_convention_witness :
    (upload_to_s3 (fun _ => true) (fun _ _ => true) (chars "a.png")
        (chars "input/qwen/111_a.png")).1 =
      some (chars "/runpod-volume/input/qwen/111_a.png") ∧
    (edit_single_image ⟨fun _ => true, fun _ _ => true, 111, some (chars "j"), []⟩
        (chars "dir/a.png") (chars "p") 12345 1024 1024 40 4 (chars " ")
        false).2.map InputData.image_path =
      [chars "/runpod-volume/" ++ singleKey 111 (chars "dir/a.png")] ∧
    (edit_dual_image ⟨fun _ => true, fun _ _ => true, 111, some (chars "j"), []⟩
        (chars "dir/a.png") (chars "dir/b.png") (chars "p") 12345 1024 1024 40 4
        (chars " ") false).2.map (fun d => (d.image_path, d.image_path_2)) =
      [(chars "/runpod-volume/" ++ donorKey 111 (chars "dir/a.png"),
        some (chars "/runpod-volume/" ++ canvasKey 111 (chars "dir/b.png")))] := by
  have h := s3_storage_reference_convention (fun _ => true) (fun _ _ => true)
    (chars "a.png") (chars "input/qwen/111_a.png") rfl rfl
    ⟨fun _ => true, fun _ _ => true, 111, some (chars "j"), []⟩
    (chars "dir/a.png") (chars "dir/b.png") (chars "p") 12345 1024 1024 40 4
    (chars " ") false rfl rfl rfl rfl rfl
  exact ⟨h.1.trans (by decide), h.2.1, h.2.2⟩

/-! ## Batch-driver theorems -/

/-- The per-file loop records one entry and one edit call per file, and the
edit calls carry the seed offset by the enumeration index with all other
parameters held constant. -/
theorem batchLoop_spec (edit : EditCall → JobOut) (save : JobOut → List Char → Bool)
    (image_folder_path output_folder_path prompt : List Char)
    (seed width height steps : Int) (cfg : Rat) (negative_prompt : List Char)
    (use_lightning : Bool) (files : List (List Char)) :
    ∀ i : Nat,
      (batchLoop edit save image_folder_path output_folder_path prompt seed
        width height steps cfg negative_prompt use_lightning i
        files).2.2.1.length = files.length ∧
      (batchLoop edit save image_folder_path output_folder_path prompt seed
        width height steps cfg negative_prompt use_lightning i files).2.2.2 =
        (List.enumFrom i files).map (fun p =>
          { image_path := pathJoin image_folder_path p.2, prompt := prompt,
            seed := seed + (p.1 : Int), width := width, height := height,
            steps := steps, cfg := cfg, negative_prompt := negative_prompt,
            use_lightning := use_lightning }) := by
  induction files with
  | nil => intro i; simp [batchLoop, List.enumFrom]
  | cons f fs ih =>
    intro i
    have ihs := ih (i + 1)
    constructor
    · simp only [batchLoop, List.length_cons]
      rw [ihs.1]
    · simp only [batchLoop, List.enumFrom, List.map]
      rw [ihs.2]

/-- C4: on an existing source directory whose listing has at least one file
with an accepted extension, the batch driver returns a summary whose
`total_files` is the number K of matching files, records exactly K per-file
entries whatever the per-file outcomes (no failure halts processing), and
its i-th edit call carries seed `base + i` with every other generation
parameter held constant. -/
theorem batch_edit_images_processes_matching (edit : EditCall → JobOut)
    (save : JobOut → List Char → Bool) (listing : List (List Char))
    (image_folder_path output_folder_path : List Char)
    (valid_image_extensions : List (List Char)) (prompt : List Char)
    (seed width height steps : Int) (cfg : Rat) (negative_prompt : List Char)
    (use_lightning : Bool)
    (hne : listing.filter (matchesExt valid_image_extensions) ≠ []) :
    (∃ s, (batch_edit_images edit save true listing image_folder_path
        output_folder_path valid_image_extensions prompt seed width height
        steps cfg negative_prompt use_lightning).1 = .ok s ∧
      s.total_files =
        (listing.filter (matchesExt valid_image_extensions)).length ∧
      s.results.length =
        (listing.filter (matchesExt valid_image_extensions)).length) ∧
    (batch_edit_images edit save true listing image_folder_path
        output_folder_path valid_image_extensions prompt seed width height
        steps cfg negative_prompt use_lightning).2.2 =
      (List.enum (listing.filter (matchesExt valid_image_extensions))).map
        (fun p =>
          { image_path := pathJoin image_folder_path p.2, prompt := prompt,
            seed := seed + (p.1 : Int), width := width, height := height,
            steps := steps, cfg := cfg, negative_prompt := negative_prompt,
            use_lightning := use_lightning }) := by
  have hb := batchLoop_spec edit save image_folder_path output_folder_path
    prompt seed width height steps cfg negative_prompt use_lightning
    (listing.filter (matchesExt valid_image_extensions)) 0
  simp only [batch_edit_images]
  rw [if_neg (by simp)]
  rw [if_neg hne]
  refine ⟨⟨_, rfl, rfl, hb.1⟩, ?_⟩
  rw [List.enum]
  exact hb.2

/-- Witness for C4: two of three listed files match the accepted
extensions (case-insensitively); the summary counts two files and the two
calls carry seeds 12345 and 12346. -/
theorem batch_edit_images_processes_matching_witness :
    ([chars "a.PNG", chars "b.txt", chars "c.jpg"].filter
        (matchesExt [chars ".jpg", chars ".jpeg", chars ".png", chars ".bmp"]) ≠ []) ∧
    ((∃ s, (batch_edit_images (fun _ => .errDict (chars "x")) (fun _ _ => false)
        true [chars "a.PNG", chars "b.txt", chars "c.jpg"] (chars "src")
        (chars "dst") [chars ".jpg", chars ".jpeg", chars ".png", chars ".bmp"]
        (chars "p") 12345 1024 1024 40 4 (chars " ") false).1 = .ok s ∧
      s.total_files =
        (([chars "a.PNG", chars "b.txt", chars "c.jpg"]).filter
          (matchesExt [chars ".jpg", chars ".jpeg", chars ".png", chars ".bmp"])).length ∧
      s.results.length =
        (([chars "a.PNG", chars "b.txt", chars "c.jpg"]).filter
          (matchesExt [chars ".jpg", chars ".jpeg", chars ".png", chars ".bmp"])).length) ∧
    (batch_edit_images (fun _ => .errDict (chars "x")) (fun _ _ => false)
        true [chars "a.PNG", chars "b.txt", chars "c.jpg"] (chars "src")
        (chars "dst") [chars ".jpg", chars ".jpeg", chars ".png", chars ".bmp"]
        (chars "p") 12345 1024 1024 40 4 (chars " ") false).2.2 =
      (List.enum (([chars "a.PNG", chars "b.txt", chars "c.jpg"]).filter
          (matchesExt [chars ".jpg", chars ".jpeg", chars ".png", chars ".bmp"]))).map
        (fun p =>
          { image_path := pathJoin (chars "src") p.2, prompt := chars "p",
            seed := 12345 + (p.1 : Int), width := 1024, height := 1024,
            steps := 40, cfg := 4, negative_prompt := chars " ",
            use_lightning := false })) :=
  ⟨by decide,
   batch_edit_images_processes_matching (fun _ => .errDict (chars "x"))
     (fun _ _ => false) [chars "a.PNG", chars "b.txt", chars "c.jpg"]
     (chars "src") (chars "dst")
     [chars ".jpg", chars ".jpeg", chars ".png", chars ".bmp"] (chars "p")
     12345 1024 1024 40 4 (chars " ") false (by decide)⟩

/-- C10: the batch driver returns an error outcome exactly when the source
directory is missing or no listed file matches an accepted extension; with
a missing source directory nothing is created on the filesystem, while in
the no-matching-files case the output directory has already been created
before the enumeration check. -/
theorem batch_edit_images_error_conditions (edit : EditCall → JobOut)
    (save : JobOut → List Char → Bool) (isDir : Bool)
    (listing : List (List Char))
    (image_folder_path output_folder_path : List Char)
    (valid_image_extensions : List (List Char)) (prompt : List Char)
    (seed width height steps : Int) (cfg : Rat) (negative_prompt : List Char)
    (use_lightning : Bool) :
    ((∃ msg, (batch_edit_images edit save isDir listing image_folder_path
        output_folder_path valid_image_extensions prompt seed width height
        steps cfg negative_prompt use_lightning).1 = .error msg) ↔
      (isDir = false ∨
        listing.filter (matchesExt valid_image_extensions) = [])) ∧
    (isDir = false →
      (batch_edit_images edit save isDir listing image_folder_path
        output_folder_path valid_image_extensions prompt seed width height
        steps cfg negative_prompt use_lightning).2.1 = []) ∧
    (isDir = true → listing.filter (matchesExt valid_image_extensions) = [] →
      (batch_edit_images edit save isDir listing image_folder_path
        output_folder_path valid_image_extensions prompt seed width height
        steps cfg negative_prompt use_lightning).2.1 = [output_folder_path]) := by
  cases isDir with
  | false => simp [batch_edit_images]
  | true =>
    by_cases hf : listing.filter (matchesExt valid_image_extensions) = [] <;>
      simp [batch_edit_images, hf]

/-- Witness for C10: a missing directory creates nothing; an existing
directory with no matching file creates the output directory and errors. -/
theorem batch_edit_images_error_conditions_witness :
    ((batch_edit_images (fun _ => .errDict (chars "x")) (fun _ _ => false)
        false [] (chars "src") (chars "dst") [chars ".png"] (chars "p")
        0 0 0 0 0 (chars " ") false).2.1 = []) ∧
    ((batch_edit_images (fun _ => .errDict (chars "x")) (fun _ _ => false)
        true [chars "a.txt"] (chars "src") (chars "dst") [chars ".png"]
        (chars "p") 0 0 0 0 0 (chars " ") false).2.1 = [chars "dst"]) ∧
    (∃ msg, (batch_edit_images (fun _ => .errDict (chars "x")) (fun _ _ => false)
        true [chars "a.txt"] (chars "src") (chars "dst") [chars ".png"]
        (chars "p") 0 0 0 0 0 (chars " ") false).1 = .error msg) :=
  ⟨(batch_edit_images_error_conditions (fun _ => .errDict (chars "x"))
      (fun _ _ => false) false [] (chars "src") (chars "dst") [chars ".png"]
      (chars "p") 0 0 0 0 0 (chars " ") false).2.1 rfl,
   (batch_edit_images_error_conditions (fun _ => .errDict (chars "x"))
      (fun _ _ => false) true [chars "a.txt"] (chars "src") (chars "dst")
      [chars ".png"] (chars "p") 0 0 0 0 0 (chars " ") false).2.2 rfl (by decide),
   (batch_edit_images_error_conditions (fun _ => .errDict (chars "x"))
      (fun _ _ => false) true [chars "a.txt"] (chars "src") (chars "dst")
      [chars ".png"] (chars "p") 0 0 0 0 0 (chars " ") false).1.mpr
     (Or.inr (by decide))⟩
